import Mathlib

/-!
Verification of the study_help repository's Mastery Engine and Adaptive
Scheduler (src/backend/services/mastery_engine.py and
src/backend/services/scheduler.py) against its natural-language
specification.

Modelling conventions for the shallow embedding:
* Python floats are embedded as exact rationals (ℚ).
* datetimes are embedded as integer minutes since an epoch midnight;
  dates are integer day indices, so `datetime.combine(d, time.min)` is
  `d * 1440` and `.date()` on a datetime is floor division by 1440
  (`Int.fdiv`).  `time.max` (23:59:59.999999) is abstracted to the last
  minute of the day, 1439 — the sub-minute granularity is irrelevant to
  every claim.
* `date.today()` / `datetime.now()` are ambient inputs of the Python
  code; they are passed explicitly as `today` / `now` parameters.
* SQLAlchemy queries over a session become pure functions over a
  snapshot structure holding the relevant rows.
-/

namespace StudyHelp

/-- Trend enum (models.py lines 89-93). -/
inductive Trend
  | improving
  | stable
  | declining
  | new
deriving Repr, DecidableEq

/-- The string payload of each Trend enum member (models.py lines 89-93). -/
def Trend.value : Trend → String
  | .improving => "improving"
  | .stable => "stable"
  | .declining => "declining"
  | .new => "new"

/-- Difficulty enum (models.py lines 68-72). -/
inductive Difficulty
  | easy
  | medium
  | hard
  | exam_level
deriving Repr, DecidableEq

/-- The string payload of each Difficulty enum member (models.py lines 68-72). -/
def Difficulty.value : Difficulty → String
  | .easy => "easy"
  | .medium => "medium"
  | .hard => "hard"
  | .exam_level => "exam_level"

/-- TaskStatus enum (models.py lines 82-87). -/
inductive TaskStatus
  | pending
  | scheduled
  | in_progress
  | completed
  | skipped
deriving Repr, DecidableEq

/-- TaskType enum (models.py lines 74-80).  Note that the enum has no
PRACTICE member; scheduler.py line 121 nevertheless references
`TaskType.PRACTICE`. -/
inductive TaskType
  | reading
  | problem_set
  | quiz
  | review
  | project
  | flashcards
deriving Repr, DecidableEq

/-- Python's `int()` applied to a float/rational: truncation toward zero. -/
def py_int (x : ℚ) : ℤ := if 0 ≤ x then ⌊x⌋ else ⌈x⌉

/-- MasteryRecord row (models.py lines 275-298), restricted to the fields
read or written by the mastery engine.  `last_practiced_at` is a nullable
datetime (minutes); `next_review_date` is a day index. -/
structure MasteryRecord where
  user_id : String
  topic_id : String
  mastery_score : ℚ
  confidence_interval : ℚ
  trend : Trend
  last_practiced_at : Option ℤ
  next_review_date : ℤ
  review_interval_days : ℤ
  easiness_factor : ℚ
  practice_count : ℕ
  quiz_count : ℕ
deriving Repr, DecidableEq

/-- MasteryEngine.calculate_confidence_interval (mastery_engine.py lines
122-132): `max(5.0, 20.0 / math.sqrt(attempt_count))`.  Because ℚ has no
square root, the embedding takes the (irrational) value
`math.sqrt(attempt_count)` as an explicit parameter `sqrt_attempt_count`;
every theorem below holds for an arbitrary value of it. -/
def calculate_confidence_interval (sqrt_attempt_count : ℚ) : ℚ :=
  max 5 (20 / sqrt_attempt_count)

/-- MasteryEngine.initialize_mastery (mastery_engine.py lines 19-56): the
new record built at lines 40-50.  `easiness_factor` and
`review_interval_days` are not set by the constructor call and therefore
take the column defaults 2.5 and 1 (models.py lines 290-291).
`sqrt_question_count` abstracts `math.sqrt(question_count)` as in
`calculate_confidence_interval`. -/
def init_mastery (user_id topic_id : String) (diagnostic_score : ℚ)
    (sqrt_question_count : ℚ) (now : ℤ) (today : ℤ) : MasteryRecord :=
  let confidence := calculate_confidence_interval sqrt_question_count
  { user_id := user_id
    topic_id := topic_id
    mastery_score := diagnostic_score
    confidence_interval := confidence
    trend := Trend.new
    last_practiced_at := some now
    next_review_date := today + 1
    review_interval_days := 1
    easiness_factor := 2.5
    practice_count := 1
    quiz_count := 0 }

/-- MasteryEngine.detect_trend (mastery_engine.py lines 134-153). -/
def detect_trend (old_mastery new_mastery : ℚ) (threshold : ℚ := 5) : Trend :=
  let delta := new_mastery - old_mastery
  if delta > threshold then Trend.improving
  else if delta < -threshold then Trend.declining
  else Trend.stable

/-- MasteryEngine.calculate_next_review (mastery_engine.py lines 155-187),
the SM-2 update.  Returns `(next_interval_days, updated_easiness_factor)`. -/
def calculate_next_review (easiness_factor : ℚ) (current_interval : ℤ)
    (quality : ℤ) : ℤ × ℚ :=
  let new_ef := easiness_factor +
    (0.1 - ((5 - quality : ℤ) : ℚ) * (0.08 + ((5 - quality : ℤ) : ℚ) * 0.02))
  let new_ef := max 1.3 new_ef
  let next_interval : ℤ :=
    if quality < 3 then 1
    else
      if current_interval = 0 then 1
      else if current_interval = 1 then 6
      else py_int ((current_interval : ℚ) * new_ef)
  (next_interval, new_ef)

/-- MasteryEngine.update_mastery_ewma (mastery_engine.py lines 58-120) for
an existing record (the `if not mastery` branch at lines 84-85 delegates to
initialize_mastery and is embedded separately by `init_mastery`). -/
def update_mastery_ewma (mastery : MasteryRecord) (quiz_score : ℚ)
    (alpha : ℚ) (now : ℤ) (today : ℤ) : MasteryRecord :=
  let old_mastery := mastery.mastery_score
  let new_mastery := alpha * quiz_score + (1 - alpha) * old_mastery
  let new_confidence := max 5 (mastery.confidence_interval * 0.9)
  let new_trend := detect_trend old_mastery new_mastery
  let m1 : MasteryRecord :=
    if new_mastery ≥ 70 then
      let quality := py_int (quiz_score / 100 * 5)
      let result := calculate_next_review mastery.easiness_factor
        mastery.review_interval_days quality
      { mastery with
          review_interval_days := result.1
          next_review_date := today + result.1
          easiness_factor := result.2 }
    else
      { mastery with
          review_interval_days := 1
          next_review_date := today + 1 }
  { m1 with
      mastery_score := new_mastery
      confidence_interval := new_confidence
      trend := new_trend
      last_practiced_at := some now
      quiz_count := mastery.quiz_count + 1 }

/-- MasteryEngine.select_difficulty_by_mastery (mastery_engine.py lines
189-206). -/
def select_difficulty_by_mastery (mastery : ℚ) : Difficulty :=
  if mastery < 40 then Difficulty.easy
  else if mastery < 60 then Difficulty.medium
  else if mastery < 80 then Difficulty.hard
  else Difficulty.exam_level

/-- The list `diff_order` of mastery_engine.py line 228. -/
def diff_order : List Difficulty :=
  [Difficulty.easy, Difficulty.medium, Difficulty.hard, Difficulty.exam_level]

/-- Embeds `diff_order.index(d)` (mastery_engine.py lines 232 and 235). -/
def difficulty_index : Difficulty → ℕ
  | .easy => 0
  | .medium => 1
  | .hard => 2
  | .exam_level => 3

/-- MasteryEngine.select_difficulty_adaptive (mastery_engine.py lines
208-244). -/
def select_difficulty_adaptive (mastery : ℚ) (trend : Trend)
    (days_until_exam : ℤ) (difficulty_curve : String) : Difficulty :=
  let base_diff := select_difficulty_by_mastery mastery
  let base_diff :=
    if trend = Trend.declining then
      diff_order.getD (max 0 (difficulty_index base_diff - 1)) Difficulty.easy
    else if trend = Trend.improving ∧ difficulty_curve = "aggressive" then
      diff_order.getD (min 3 (difficulty_index base_diff + 1)) Difficulty.easy
    else base_diff
  if days_until_exam ≤ 7 ∧ mastery ≥ 60 then Difficulty.exam_level
  else if days_until_exam ≤ 3 ∧ mastery < 60 then Difficulty.medium
  else base_diff

/-- MasteryEngine.calculate_priority (mastery_engine.py lines 246-273).
`exam_date` and `last_practiced` are day indices; `today` embeds
`date.today()`. -/
def calculate_priority (assessment_weight mastery_score confidence_interval : ℚ)
    (exam_date : ℤ) (last_practiced : Option ℤ) (today : ℤ) : ℚ :=
  let weight := assessment_weight / 100
  let gap := 1 - mastery_score / 100
  let days_until_exam : ℤ := max 1 (exam_date - today)
  let urgency : ℚ := 1 / (days_until_exam : ℚ)
  let confidence_factor : ℚ := 1 / (1 + confidence_interval / 100)
  let days_since_practice : ℤ :=
    match last_practiced with
    | some d => today - d
    | none => 30
  let recency_factor : ℚ := 1 / (1 + (days_since_practice : ℚ))
  (weight * gap * urgency * confidence_factor) / recency_factor

/-! ## Mastery-engine lemmas and claim theorems (C6-C10) -/

lemma update_mastery_score (m : MasteryRecord) (q a : ℚ) (now today : ℤ) :
    (update_mastery_ewma m q a now today).mastery_score
      = a * q + (1 - a) * m.mastery_score := rfl

lemma update_confidence (m : MasteryRecord) (q a : ℚ) (now today : ℤ) :
    (update_mastery_ewma m q a now today).confidence_interval
      = max 5 (m.confidence_interval * 0.9) := rfl

/-- An existing mastery record with old mastery 60, used for the C6 scenario. -/
def rec60 : MasteryRecord :=
  { user_id := "u", topic_id := "t", mastery_score := 60, confidence_interval := 20,
    trend := Trend.stable, last_practiced_at := none, next_review_date := 0,
    review_interval_days := 1, easiness_factor := 2.5, practice_count := 1, quiz_count := 0 }

/-- C6: for an existing record, update_mastery_ewma computes
alpha*quiz_score + (1-alpha)*old_mastery; for quiz_score in [0,100] and
alpha in [0,1] the new mastery lies in the closed interval between the
old mastery and the quiz score; and the scenario old=60, quiz_score=90,
alpha=0.3 yields new_mastery = 69. -/
theorem update_mastery_ewma_convex :
    (∀ (m : MasteryRecord) (q a : ℚ) (now today : ℤ),
        0 ≤ q → q ≤ 100 → 0 ≤ a → a ≤ 1 →
        (update_mastery_ewma m q a now today).mastery_score
            = a * q + (1 - a) * m.mastery_score ∧
        min m.mastery_score q ≤ (update_mastery_ewma m q a now today).mastery_score ∧
        (update_mastery_ewma m q a now today).mastery_score ≤ max m.mastery_score q) ∧
    (update_mastery_ewma rec60 90 0.3 0 0).mastery_score = 69 := by
  constructor
  · intro m q a now today hq0 hq100 ha0 ha1
    rw [update_mastery_score]
    refine ⟨rfl, ?_, ?_⟩
    · rcases le_total m.mastery_score q with h | h
      · rw [min_eq_left h]; nlinarith
      · rw [min_eq_right h]; nlinarith
    · rcases le_total m.mastery_score q with h | h
      · rw [max_eq_right h]; nlinarith
      · rw [max_eq_left h]; nlinarith
  · rw [update_mastery_score]
    norm_num [rec60]

/-- Witness for C6 at the scenario input. -/
theorem update_mastery_ewma_convex_witness :
    (0:ℚ) ≤ 90 ∧ (90:ℚ) ≤ 100 ∧ (0:ℚ) ≤ 0.3 ∧ (0.3:ℚ) ≤ 1 ∧
    min rec60.mastery_score 90 ≤ (update_mastery_ewma rec60 90 0.3 0 0).mastery_score := by
  refine ⟨by norm_num, by norm_num, by norm_num, by norm_num, ?_⟩
  exact (update_mastery_ewma_convex.1 rec60 90 0.3 0 0 (by norm_num) (by norm_num)
    (by norm_num) (by norm_num)).2.1

lemma calc_next_review_ef (ef : ℚ) (i q : ℤ) :
    (calculate_next_review ef i q).2
      = max 1.3 (ef + 0.1 - ((5:ℚ) - (q:ℚ)) * (0.08 + ((5:ℚ) - (q:ℚ)) * 0.02)) := by
  have h : (calculate_next_review ef i q).2
      = max 1.3 (ef + (0.1 - ((5 - q : ℤ) : ℚ) * (0.08 + ((5 - q : ℤ) : ℚ) * 0.02))) := rfl
  rw [h]
  congr 1
  push_cast
  ring

lemma calc_next_review_ef_ge (ef : ℚ) (i q : ℤ) :
    (1.3 : ℚ) ≤ (calculate_next_review ef i q).2 :=
  le_max_left _ _

/-- C7: calculate_next_review implements SM-2: the updated easiness factor
equals max(1.3, ef + 0.1 - (5-quality)*(0.08 + (5-quality)*0.02)) and never
falls below 1.3; for a non-negative current interval the next interval is 1
when quality < 3, else 1 when current_interval = 0, 6 when
current_interval = 1, and floor(current_interval * ef') otherwise; and the
scenario ef=2.5, interval=6, quality=4 returns (15, 2.5). -/
theorem calculate_next_review_sm2 :
    (∀ (ef : ℚ) (i q : ℤ),
        (calculate_next_review ef i q).2
          = max 1.3 (ef + 0.1 - ((5:ℚ) - (q:ℚ)) * (0.08 + ((5:ℚ) - (q:ℚ)) * 0.02)) ∧
        (1.3 : ℚ) ≤ (calculate_next_review ef i q).2) ∧
    (∀ (ef : ℚ) (i q : ℤ), 0 ≤ i →
        (calculate_next_review ef i q).1
          = if q < 3 then 1
            else if i = 0 then 1
            else if i = 1 then 6
            else ⌊(i : ℚ) * (calculate_next_review ef i q).2⌋) ∧
    calculate_next_review 2.5 6 4 = (15, 2.5) := by
  refine ⟨fun ef i q => ⟨calc_next_review_ef ef i q, calc_next_review_ef_ge ef i q⟩,
    fun ef i q hi => ?_, by norm_num [calculate_next_review, py_int, max_def, Prod.ext_iff]⟩
  have h1 : (calculate_next_review ef i q).1
      = (if q < 3 then 1
          else if i = 0 then 1
          else if i = 1 then 6
          else py_int ((i : ℚ) * (calculate_next_review ef i q).2)) := rfl
  rw [h1]
  have hnn : 0 ≤ (i : ℚ) * (calculate_next_review ef i q).2 := by
    apply mul_nonneg
    · exact_mod_cast hi
    · linarith [calc_next_review_ef_ge ef i q]
  have h2 : py_int ((i : ℚ) * (calculate_next_review ef i q).2)
      = ⌊(i : ℚ) * (calculate_next_review ef i q).2⌋ := by
    unfold py_int
    rw [if_pos hnn]
  rw [h2]

/-- Witness for C7 at the scenario input. -/
theorem calculate_next_review_sm2_witness :
    (0:ℤ) ≤ 6 ∧
    (calculate_next_review 2.5 6 4).1
      = if (4:ℤ) < 3 then 1
        else if (6:ℤ) = 0 then 1
        else if (6:ℤ) = 1 then 6
        else ⌊((6:ℤ) : ℚ) * (calculate_next_review 2.5 6 4).2⌋ :=
  ⟨by decide, calculate_next_review_sm2.2.1 2.5 6 4 (by decide)⟩

/-- The record after n successive update_mastery_ewma calls starting from a
given record, with arbitrary per-step quiz scores, alphas and clock
readings. -/
def mastery_after (r0 : MasteryRecord) (qs alphas : ℕ → ℚ)
    (nows todays : ℕ → ℤ) : ℕ → MasteryRecord
  | 0 => r0
  | n + 1 => update_mastery_ewma (mastery_after r0 qs alphas nows todays n)
      (qs n) (alphas n) (nows n) (todays n)

lemma mastery_after_conf_ge (r0 : MasteryRecord) (qs alphas : ℕ → ℚ)
    (nows todays : ℕ → ℤ) (h0 : 5 ≤ r0.confidence_interval) :
    ∀ n, 5 ≤ (mastery_after r0 qs alphas nows todays n).confidence_interval := by
  intro n
  induction n with
  | zero => exact h0
  | succ k ih =>
    show 5 ≤ (update_mastery_ewma _ _ _ _ _).confidence_interval
    rw [update_confidence]
    exact le_max_left _ _

/-- C8: starting from a record created by initialize_mastery, across any
sequence of update_mastery_ewma calls the confidence interval never drops
below 5 and is non-increasing from each update to the next. -/
theorem confidence_interval_monotone :
    ∀ (u t : String) (ds sq : ℚ) (now0 today0 : ℤ) (qs alphas : ℕ → ℚ)
      (nows todays : ℕ → ℤ) (n : ℕ),
      5 ≤ (mastery_after (init_mastery u t ds sq now0 today0)
            qs alphas nows todays n).confidence_interval ∧
      (mastery_after (init_mastery u t ds sq now0 today0)
            qs alphas nows todays (n + 1)).confidence_interval
        ≤ (mastery_after (init_mastery u t ds sq now0 today0)
            qs alphas nows todays n).confidence_interval := by
  intro u t ds sq now0 today0 qs alphas nows todays n
  have h0 : 5 ≤ (init_mastery u t ds sq now0 today0).confidence_interval :=
    le_max_left _ _
  have hge := mastery_after_conf_ge _ qs alphas nows todays h0 n
  refine ⟨hge, ?_⟩
  show (update_mastery_ewma _ _ _ _ _).confidence_interval ≤ _
  rw [update_confidence]
  apply max_le hge
  nlinarith

/-- C10: update_mastery_ewma leaves practice_count unchanged and increments
quiz_count by exactly one, while initialize_mastery sets practice_count
to 1. -/
theorem practice_count_frame :
    (∀ (m : MasteryRecord) (q a : ℚ) (now today : ℤ),
        (update_mastery_ewma m q a now today).practice_count = m.practice_count ∧
        (update_mastery_ewma m q a now today).quiz_count = m.quiz_count + 1) ∧
    (∀ (u t : String) (ds sq : ℚ) (now today : ℤ),
        (init_mastery u t ds sq now today).practice_count = 1) := by
  refine ⟨fun m q a now today => ⟨?_, rfl⟩, fun _ _ _ _ _ _ => rfl⟩
  simp only [update_mastery_ewma]
  split <;> rfl

lemma calculate_priority_some (w m c : ℚ) (e lp today : ℤ) :
    calculate_priority w m c e (some lp) today
      = (w / 100) * (1 - m / 100) * (1 / ((max 1 (e - today) : ℤ) : ℚ))
          * (1 / (1 + c / 100)) / (1 / (1 + ((today - lp : ℤ) : ℚ))) := rfl

lemma calculate_priority_mul (w m c : ℚ) (e lp today : ℤ) :
    calculate_priority w m c e (some lp) today
      = (w / 100) * (1 - m / 100) * (1 / ((max 1 (e - today) : ℤ) : ℚ))
          * (1 / (1 + c / 100)) * (1 + ((today - lp : ℤ) : ℚ)) := by
  rw [calculate_priority_some, div_eq_mul_inv]
  congr 1
  rw [one_div, inv_inv]

lemma max_cast_pos (e today : ℤ) : (0:ℚ) < ((max 1 (e - today) : ℤ) : ℚ) := by
  have h : (1:ℤ) ≤ max 1 (e - today) := le_max_left _ _
  exact_mod_cast lt_of_lt_of_le zero_lt_one h

lemma days_since_nonneg (lp today : ℤ) (h : lp ≤ today) :
    (0:ℚ) ≤ 1 + ((today - lp : ℤ) : ℚ) := by
  have h1 : (0:ℤ) ≤ today - lp := by omega
  have h2 : (0:ℚ) ≤ ((today - lp : ℤ) : ℚ) := by exact_mod_cast h1
  linarith

/-- C9: calculate_priority equals
(weight/100)*(1-mastery/100)*(1/max(1,days_until_exam))*(1/(1+confidence/100))
divided by (1/(1+days_since_practice)); holding the other inputs fixed it is
monotone increasing in the weight and in the mastery gap, and monotone
decreasing in the exam date (hence in days_until_exam) and in the confidence
interval. -/
theorem calculate_priority_monotone :
    (∀ (w m c : ℚ) (e lp today : ℤ),
        calculate_priority w m c e (some lp) today
          = (w / 100) * (1 - m / 100) * (1 / ((max 1 (e - today) : ℤ) : ℚ))
              * (1 / (1 + c / 100)) / (1 / (1 + ((today - lp : ℤ) : ℚ)))) ∧
    (∀ (w₁ w₂ m c : ℚ) (e lp today : ℤ), m ≤ 100 → 0 ≤ c → lp ≤ today →
        w₁ ≤ w₂ →
        calculate_priority w₁ m c e (some lp) today
          ≤ calculate_priority w₂ m c e (some lp) today) ∧
    (∀ (w m₁ m₂ c : ℚ) (e lp today : ℤ), 0 ≤ w → 0 ≤ c → lp ≤ today →
        m₁ ≤ m₂ →
        calculate_priority w m₂ c e (some lp) today
          ≤ calculate_priority w m₁ c e (some lp) today) ∧
    (∀ (w m c : ℚ) (e₁ e₂ lp today : ℤ), 0 ≤ w → m ≤ 100 → 0 ≤ c → lp ≤ today →
        e₁ ≤ e₂ →
        calculate_priority w m c e₂ (some lp) today
          ≤ calculate_priority w m c e₁ (some lp) today) ∧
    (∀ (w m c₁ c₂ : ℚ) (e lp today : ℤ), 0 ≤ w → m ≤ 100 → lp ≤ today →
        0 ≤ c₁ → c₁ ≤ c₂ →
        calculate_priority w m c₂ e (some lp) today
          ≤ calculate_priority w m c₁ e (some lp) today) := by
  refine ⟨fun w m c e lp today => calculate_priority_some w m c e lp today,
    ?_, ?_, ?_, ?_⟩
  · intro w₁ w₂ m c e lp today hm hc hlp hw
    have hB : (0:ℚ) ≤ 1 - m / 100 := by linarith
    have hC : (0:ℚ) ≤ 1 / ((max 1 (e - today) : ℤ) : ℚ) :=
      le_of_lt (one_div_pos.mpr (max_cast_pos e today))
    have hD : (0:ℚ) ≤ 1 / (1 + c / 100) :=
      le_of_lt (one_div_pos.mpr (by linarith))
    have hE := days_since_nonneg lp today hlp
    have hK : (0:ℚ) ≤ (1 - m / 100) * (1 / ((max 1 (e - today) : ℤ) : ℚ))
        * (1 / (1 + c / 100)) * (1 + ((today - lp : ℤ) : ℚ)) / 100 := by
      apply div_nonneg _ (by norm_num)
      exact mul_nonneg (mul_nonneg (mul_nonneg hB hC) hD) hE
    calc calculate_priority w₁ m c e (some lp) today
        = ((1 - m / 100) * (1 / ((max 1 (e - today) : ℤ) : ℚ)) * (1 / (1 + c / 100))
            * (1 + ((today - lp : ℤ) : ℚ)) / 100) * w₁ := by
          rw [calculate_priority_mul]; ring
      _ ≤ ((1 - m / 100) * (1 / ((max 1 (e - today) : ℤ) : ℚ)) * (1 / (1 + c / 100))
            * (1 + ((today - lp : ℤ) : ℚ)) / 100) * w₂ :=
          mul_le_mul_of_nonneg_left hw hK
      _ = calculate_priority w₂ m c e (some lp) today := by
          rw [calculate_priority_mul]; ring
  · intro w m₁ m₂ c e lp today hw hc hlp hm
    have hC : (0:ℚ) ≤ 1 / ((max 1 (e - today) : ℤ) : ℚ) :=
      le_of_lt (one_div_pos.mpr (max_cast_pos e today))
    have hD : (0:ℚ) ≤ 1 / (1 + c / 100) :=
      le_of_lt (one_div_pos.mpr (by linarith))
    have hE := days_since_nonneg lp today hlp
    have hK : (0:ℚ) ≤ w * (1 / ((max 1 (e - today) : ℤ) : ℚ))
        * (1 / (1 + c / 100)) * (1 + ((today - lp : ℤ) : ℚ)) / 100 := by
      apply div_nonneg _ (by norm_num)
      exact mul_nonneg (mul_nonneg (mul_nonneg hw hC) hD) hE
    have hgap : 1 - m₂ / 100 ≤ 1 - m₁ / 100 := by linarith
    calc calculate_priority w m₂ c e (some lp) today
        = (w * (1 / ((max 1 (e - today) : ℤ) : ℚ)) * (1 / (1 + c / 100))
            * (1 + ((today - lp : ℤ) : ℚ)) / 100) * (1 - m₂ / 100) := by
          rw [calculate_priority_mul]; ring
      _ ≤ (w * (1 / ((max 1 (e - today) : ℤ) : ℚ)) * (1 / (1 + c / 100))
            * (1 + ((today - lp : ℤ) : ℚ)) / 100) * (1 - m₁ / 100) :=
          mul_le_mul_of_nonneg_left hgap hK
      _ = calculate_priority w m₁ c e (some lp) today := by
          rw [calculate_priority_mul]; ring
  · intro w m c e₁ e₂ lp today hw hm hc hlp he
    have hB : (0:ℚ) ≤ 1 - m / 100 := by linarith
    have hD : (0:ℚ) ≤ 1 / (1 + c / 100) :=
      le_of_lt (one_div_pos.mpr (by linarith))
    have hE := days_since_nonneg lp today hlp
    have hK : (0:ℚ) ≤ w * (1 - m / 100)
        * (1 / (1 + c / 100)) * (1 + ((today - lp : ℤ) : ℚ)) / 100 := by
      apply div_nonneg _ (by norm_num)
      exact mul_nonneg (mul_nonneg (mul_nonneg hw hB) hD) hE
    have hmax : ((max 1 (e₁ - today) : ℤ) : ℚ) ≤ ((max 1 (e₂ - today) : ℤ) : ℚ) := by
      have h : max 1 (e₁ - today) ≤ max 1 (e₂ - today) :=
        max_le_max le_rfl (by omega)
      exact_mod_cast h
    have hfac : 1 / ((max 1 (e₂ - today) : ℤ) : ℚ)
        ≤ 1 / ((max 1 (e₁ - today) : ℤ) : ℚ) :=
      one_div_le_one_div_of_le (max_cast_pos e₁ today) hmax
    calc calculate_priority w m c e₂ (some lp) today
        = (w * (1 - m / 100) * (1 / (1 + c / 100))
            * (1 + ((today - lp : ℤ) : ℚ)) / 100) * (1 / ((max 1 (e₂ - today) : ℤ) : ℚ)) := by
          rw [calculate_priority_mul]; ring
      _ ≤ (w * (1 - m / 100) * (1 / (1 + c / 100))
            * (1 + ((today - lp : ℤ) : ℚ)) / 100) * (1 / ((max 1 (e₁ - today) : ℤ) : ℚ)) :=
          mul_le_mul_of_nonneg_left hfac hK
      _ = calculate_priority w m c e₁ (some lp) today := by
          rw [calculate_priority_mul]; ring
  · intro w m c₁ c₂ e lp today hw hm hlp hc1 hc
    have hB : (0:ℚ) ≤ 1 - m / 100 := by linarith
    have hC : (0:ℚ) ≤ 1 / ((max 1 (e - today) : ℤ) : ℚ) :=
      le_of_lt (one_div_pos.mpr (max_cast_pos e today))
    have hE := days_since_nonneg lp today hlp
    have hK : (0:ℚ) ≤ w * (1 - m / 100)
        * (1 / ((max 1 (e - today) : ℤ) : ℚ)) * (1 + ((today - lp : ℤ) : ℚ)) / 100 := by
      apply div_nonneg _ (by norm_num)
      exact mul_nonneg (mul_nonneg (mul_nonneg hw hB) hC) hE
    have hfac : 1 / (1 + c₂ / 100) ≤ 1 / (1 + c₁ / 100) :=
      one_div_le_one_div_of_le (by linarith) (by linarith)
    calc calculate_priority w m c₂ e (some lp) today
        = (w * (1 - m / 100) * (1 / ((max 1 (e - today) : ℤ) : ℚ))
            * (1 + ((today - lp : ℤ) : ℚ)) / 100) * (1 / (1 + c₂ / 100)) := by
          rw [calculate_priority_mul]; ring
      _ ≤ (w * (1 - m / 100) * (1 / ((max 1 (e - today) : ℤ) : ℚ))
            * (1 + ((today - lp : ℤ) : ℚ)) / 100) * (1 / (1 + c₁ / 100)) :=
          mul_le_mul_of_nonneg_left hfac hK
      _ = calculate_priority w m c₁ e (some lp) today := by
          rw [calculate_priority_mul]; ring

/-- Witness for C9: the weight-monotonicity clause at a concrete input. -/
theorem calculate_priority_monotone_witness :
    (50:ℚ) ≤ 100 ∧ (0:ℚ) ≤ 10 ∧ (0:ℤ) ≤ 1 ∧ (10:ℚ) ≤ 20 ∧
    calculate_priority 10 50 10 5 (some 0) 1
      ≤ calculate_priority 20 50 10 5 (some 0) 1 := by
  refine ⟨by norm_num, by norm_num, by decide, by norm_num, ?_⟩
  exact calculate_priority_monotone.2.1 10 20 50 10 5 0 1
    (by norm_num) (by norm_num) (by decide) (by norm_num)

/-! ## Greedy scheduler (scheduler.py, schedule_tasks_greedy lines 132-191) -/

/-- StudyTask as consumed by schedule_tasks_greedy: the only fields the
algorithm reads are `estimated_duration_min` (minutes, an int column) and
`priority_score` (a nullable float column); `tid` stands for the row id and
makes distinct candidate tasks distinguishable. -/
structure Task where
  tid : ℕ
  estimated_duration_min : ℕ
  priority_score : Option ℚ
deriving Repr, DecidableEq

/-- The sort key of scheduler.py line 141: `t.priority_score or 0`
(a missing priority counts as 0). -/
def priority_key (t : Task) : ℚ := t.priority_score.getD 0

/-- Stable insertion: place `a` before the first element `x` with `le a x`.
With `le a x` meaning "a may sit before x", `sort_by` below is a stable
sort, matching Python's `sorted`. -/
def ins_sorted {α : Type} (le : α → α → Bool) (a : α) : List α → List α
  | [] => [a]
  | x :: xs => if le a x then a :: x :: xs else x :: ins_sorted le a xs

/-- Stable insertion sort, the embedding of Python's `sorted`/`list.sort`. -/
def sort_by {α : Type} (le : α → α → Bool) : List α → List α
  | [] => []
  | a :: l => ins_sorted le a (sort_by le l)

/-- A task promoted to SCHEDULED, with the `scheduled_start`/`scheduled_end`
datetimes assigned by the greedy scheduler (scheduler.py lines 169-171). -/
structure ScheduledTask where
  task : Task
  scheduled_start : ℤ
  scheduled_end : ℤ
deriving Repr, DecidableEq

/-- Embeds `.date()` on a datetime: floor division by 1440 minutes. -/
def day_of (t : ℤ) : ℤ := Int.fdiv t 1440

/-- The inner block scan of scheduler.py lines 153-186: find the first block
`(s, e)` that fits the task (`task_duration ≤ block_duration`, line 158) and
respects the daily limit (line 165).  Returns the chosen block together with
the remaining list in original order (Python's `available_blocks.remove`
removes the first equal tuple; the first fitting block is always the first
occurrence of its value, since an earlier equal tuple would also have fit). -/
def find_fit (dur : ℕ) (max_daily_minutes : ℚ) (usage : ℤ → ℕ) :
    List (ℤ × ℤ) → Option ((ℤ × ℤ) × List (ℤ × ℤ))
  | [] => none
  | (s, e) :: bs =>
    if (dur : ℤ) ≤ e - s ∧ ((usage (day_of s) + dur : ℕ) : ℚ) ≤ max_daily_minutes then
      some ((s, e), bs)
    else
      match find_fit dur max_daily_minutes usage bs with
      | none => none
      | some (b, rest) => some (b, (s, e) :: rest)

/-- The mutable state of schedule_tasks_greedy: the free-block list, the
per-day used minutes (`daily_usage`), and the two output partitions. -/
structure GreedyState where
  available_blocks : List (ℤ × ℤ)
  daily_usage : ℤ → ℕ
  scheduled : List ScheduledTask
  unscheduled : List Task

/-- One iteration of the task loop (scheduler.py lines 149-189): scan for a
block; on a match assign `scheduled_start = block_start`,
`scheduled_end = block_start + duration`, bump the day's usage, drop the
consumed block and append the non-empty remainder `(end, block_end)` to the
END of the free-block list (lines 177-182); otherwise the task goes to the
unscheduled partition. -/
def greedy_step (max_hours_per_day : ℚ) (st : GreedyState) (task : Task) : GreedyState :=
  match find_fit task.estimated_duration_min (max_hours_per_day * 60)
      st.daily_usage st.available_blocks with
  | none => { st with unscheduled := st.unscheduled ++ [task] }
  | some (b, rest) =>
    let send := b.1 + (task.estimated_duration_min : ℤ)
    { available_blocks := rest ++ (if send < b.2 then [(send, b.2)] else [])
      daily_usage := fun d =>
        if d = day_of b.1 then st.daily_usage d + task.estimated_duration_min
        else st.daily_usage d
      scheduled := st.scheduled ++ [⟨task, b.1, send⟩]
      unscheduled := st.unscheduled }

/-- schedule_tasks_greedy (scheduler.py lines 132-191): sort tasks by
priority descending (stable), then place each greedily.  Returns the
`(scheduled, unscheduled)` partitions. -/
def schedule_tasks_greedy (tasks : List Task) (available_blocks : List (ℤ × ℤ))
    (max_hours_per_day : ℚ) : List ScheduledTask × List Task :=
  let sorted_tasks := sort_by (fun a b => priority_key b ≤ priority_key a) tasks
  let final := sorted_tasks.foldl (greedy_step max_hours_per_day)
    ⟨available_blocks, fun _ => 0, [], []⟩
  (final.scheduled, final.unscheduled)

/-- Two half-open intervals that do not overlap. -/
def Disj (a b : ℤ × ℤ) : Prop := a.2 ≤ b.1 ∨ b.2 ≤ a.1

instance : DecidableRel Disj := fun a b =>
  inferInstanceAs (Decidable (a.2 ≤ b.1 ∨ b.2 ≤ a.1))

/-- The `[scheduled_start, scheduled_end)` interval of a scheduled task. -/
def interval_of (st : ScheduledTask) : ℤ × ℤ := (st.scheduled_start, st.scheduled_end)

/-- Total minutes of tasks scheduled on calendar day `d`
(scheduler.py derives the same grouping by `scheduled_start.date()`). -/
def day_sum (l : List ScheduledTask) (d : ℤ) : ℕ :=
  ((l.filter (fun st => day_of st.scheduled_start == d)).map
    (fun st => st.task.estimated_duration_min)).sum

lemma disj_symm : Symmetric Disj := fun _ _ h => Or.symm h

lemma disj_shrink {s e s' e' : ℤ} (hs : s ≤ s') (he : e' ≤ e) {x : ℤ × ℤ}
    (h : Disj (s, e) x) : Disj (s', e') x := by
  rcases h with h | h
  · exact Or.inl (le_trans he h)
  · exact Or.inr (le_trans h hs)

lemma perm_ins_sorted {α : Type} (le : α → α → Bool) (a : α) :
    ∀ l : List α, List.Perm (ins_sorted le a l) (a :: l) := by
  intro l
  induction l with
  | nil => simp [ins_sorted]
  | cons x xs ih =>
    rw [ins_sorted]
    split
    · exact List.Perm.refl _
    · exact (List.Perm.cons x ih).trans (List.Perm.swap a x xs)

lemma perm_sort_by {α : Type} (le : α → α → Bool) :
    ∀ l : List α, List.Perm (sort_by le l) l := by
  intro l
  induction l with
  | nil => exact List.Perm.refl _
  | cons a xs ih =>
    rw [sort_by]
    exact (perm_ins_sorted le a (sort_by le xs)).trans (List.Perm.cons a ih)

lemma pairwise_ins_sorted {α : Type} (le : α → α → Bool)
    (htot : ∀ a b, le a b = false → le b a = true)
    (htrans : ∀ a b c, le a b = true → le b c = true → le a c = true) (a : α) :
    ∀ l : List α, l.Pairwise (fun x y => le x y = true) →
      (ins_sorted le a l).Pairwise (fun x y => le x y = true) := by
  intro l
  induction l with
  | nil => intro _; simp [ins_sorted]
  | cons x xs ih =>
    intro h
    obtain ⟨hx, hxs⟩ := List.pairwise_cons.mp h
    rw [ins_sorted]
    split
    · rename_i hax
      refine List.pairwise_cons.mpr ⟨?_, h⟩
      intro y hy
      rcases List.mem_cons.mp hy with rfl | hy'
      · exact hax
      · exact htrans a x y hax (hx y hy')
    · rename_i hax
      have hax' : le a x = false := by
        revert hax; cases le a x <;> simp
      have hxa : le x a = true := htot a x hax'
      refine List.pairwise_cons.mpr ⟨?_, ih hxs⟩
      intro y hy
      rcases List.mem_cons.mp ((perm_ins_sorted le a xs).mem_iff.mp hy) with rfl | h'
      · exact hxa
      · exact hx y h'

lemma pairwise_sort_by {α : Type} (le : α → α → Bool)
    (htot : ∀ a b, le a b = false → le b a = true)
    (htrans : ∀ a b c, le a b = true → le b c = true → le a c = true) :
    ∀ l : List α, (sort_by le l).Pairwise (fun x y => le x y = true) := by
  intro l
  induction l with
  | nil => simp [sort_by]
  | cons a xs ih =>
    rw [sort_by]
    exact pairwise_ins_sorted le htot htrans a _ ih

lemma find_fit_spec {dur : ℕ} {maxm : ℚ} {usage : ℤ → ℕ} :
    ∀ {blocks : List (ℤ × ℤ)} {b : ℤ × ℤ} {rest : List (ℤ × ℤ)},
      find_fit dur maxm usage blocks = some (b, rest) →
      List.Perm blocks (b :: rest) ∧ (dur : ℤ) ≤ b.2 - b.1 ∧
        ((usage (day_of b.1) + dur : ℕ) : ℚ) ≤ maxm := by
  intro blocks
  induction blocks with
  | nil => intro b rest h; simp [find_fit] at h
  | cons x bs ih =>
    intro b rest h
    obtain ⟨s, e⟩ := x
    rw [find_fit] at h
    split at h
    · rename_i hcond
      obtain ⟨hb, hrest⟩ := Prod.ext_iff.mp (Option.some_inj.mp h)
      subst hb; subst hrest
      exact ⟨List.Perm.refl _, hcond.1, hcond.2⟩
    · rename_i hcond
      revert h
      match hff : find_fit dur maxm usage bs with
      | none => intro h; exact absurd h (by simp)
      | some (b', rest') =>
        intro h
        obtain ⟨hb, hrest⟩ := Prod.ext_iff.mp (Option.some_inj.mp h)
        subst hb; subst hrest
        obtain ⟨hperm, hfit, hcap⟩ := ih hff
        exact ⟨(List.Perm.cons (s, e) hperm).trans (List.Perm.swap b' (s, e) rest'),
          hfit, hcap⟩

/-- The loop invariant of the greedy scheduler, at daily cap `maxd` minutes:
the scheduled intervals and the remaining free blocks are mutually
non-overlapping, `daily_usage` equals the per-day sum of scheduled minutes,
every day's usage is zero or within the cap, and every scheduled task has
positive duration. -/
def GreedyInv (maxd : ℚ) (st : GreedyState) : Prop :=
  List.Pairwise Disj (st.scheduled.map interval_of ++ st.available_blocks) ∧
  (∀ d, day_sum st.scheduled d = st.daily_usage d) ∧
  (∀ d, st.daily_usage d = 0 ∨ ((st.daily_usage d : ℕ) : ℚ) ≤ maxd) ∧
  (∀ x ∈ st.scheduled, 0 < x.task.estimated_duration_min)

lemma day_sum_append (l₁ l₂ : List ScheduledTask) (d : ℤ) :
    day_sum (l₁ ++ l₂) d = day_sum l₁ d + day_sum l₂ d := by
  simp [day_sum, List.filter_append]

lemma day_sum_single (x : ScheduledTask) (d : ℤ) :
    day_sum [x] d
      = if day_of x.scheduled_start = d then x.task.estimated_duration_min else 0 := by
  by_cases h : day_of x.scheduled_start = d <;> simp [day_sum, h]

lemma day_sum_pos {l : List ScheduledTask} {st : ScheduledTask} (hmem : st ∈ l)
    (hpos : 0 < st.task.estimated_duration_min) :
    0 < day_sum l (day_of st.scheduled_start) := by
  induction l with
  | nil => cases hmem
  | cons x xs ih =>
    have hsplit : day_sum (x :: xs) (day_of st.scheduled_start)
        = day_sum [x] (day_of st.scheduled_start) + day_sum xs (day_of st.scheduled_start) :=
      day_sum_append [x] xs _
    rcases List.mem_cons.mp hmem with rfl | hmem'
    · rw [hsplit, day_sum_single, if_pos rfl]
      omega
    · have := ih hmem'
      rw [hsplit]
      omega

lemma greedy_step_inv {maxH : ℚ} {st : GreedyState} {t : Task}
    (ht : 0 < t.estimated_duration_min) (h : GreedyInv (maxH * 60) st) :
    GreedyInv (maxH * 60) (greedy_step maxH st t) := by
  obtain ⟨hpw, hsum, hcap, hpos⟩ := h
  unfold greedy_step
  split
  · show GreedyInv (maxH * 60) { st with unscheduled := st.unscheduled ++ [t] }
    exact ⟨hpw, hsum, hcap, hpos⟩
  · rename_i br b rest hff
    obtain ⟨hperm, hfit, hcapb⟩ := find_fit_spec hff
    have hsend : b.1 + (t.estimated_duration_min : ℤ) ≤ b.2 := by omega
    obtain ⟨hS, hB, hSB⟩ := List.pairwise_append.mp hpw
    have hB' : List.Pairwise Disj (b :: rest) :=
      (hperm.pairwise_iff (fun hxy => disj_symm hxy)).mp hB
    obtain ⟨hbrest, hrest⟩ := List.pairwise_cons.mp hB'
    have hbmem : b ∈ st.available_blocks :=
      hperm.mem_iff.mpr (List.mem_cons_self _ _)
    have hrestmem : ∀ y ∈ rest, y ∈ st.available_blocks := fun y hy =>
      hperm.mem_iff.mpr (List.mem_cons_of_mem _ hy)
    have hshrink1 : ∀ x, Disj b x → Disj (b.1, b.1 + (t.estimated_duration_min : ℤ)) x :=
      fun x hx => disj_shrink le_rfl hsend hx
    have hshrink2 : ∀ x, Disj b x → Disj (b.1 + (t.estimated_duration_min : ℤ), b.2) x :=
      fun x hx => disj_shrink (by omega) le_rfl hx
    refine ⟨?_, ?_, ?_, ?_⟩
    · show List.Pairwise Disj
        ((st.scheduled ++ [(⟨t, b.1, b.1 + (t.estimated_duration_min : ℤ)⟩ : ScheduledTask)]).map
            interval_of
          ++ (rest ++ (if b.1 + (t.estimated_duration_min : ℤ) < b.2
              then [(b.1 + (t.estimated_duration_min : ℤ), b.2)] else [])))
      rw [List.map_append]
      refine List.pairwise_append.mpr ⟨?_, ?_, ?_⟩
      · refine List.pairwise_append.mpr ⟨hS, by simp, ?_⟩
        intro a ha c hc
        rw [List.map_singleton] at hc
        rw [List.mem_singleton] at hc
        subst hc
        exact disj_symm (hshrink1 a (disj_symm (hSB a ha b hbmem)))
      · refine List.pairwise_append.mpr ⟨hrest, ?_, ?_⟩
        · split <;> simp
        · intro y hy r hr
          split at hr
          · rw [List.mem_singleton] at hr
            subst hr
            exact disj_symm (hshrink2 y (hbrest y hy))
          · cases hr
      · intro a ha c hc
        rcases List.mem_append.mp ha with haS | haN
        · rcases List.mem_append.mp hc with hcR | hcRem
          · exact hSB a haS c (hrestmem c hcR)
          · split at hcRem
            · rw [List.mem_singleton] at hcRem
              subst hcRem
              exact disj_symm (hshrink2 a (disj_symm (hSB a haS b hbmem)))
            · cases hcRem
        · rw [List.map_singleton, List.mem_singleton] at haN
          subst haN
          rcases List.mem_append.mp hc with hcR | hcRem
          · exact hshrink1 c (hbrest c hcR)
          · split at hcRem
            · rw [List.mem_singleton] at hcRem
              subst hcRem
              exact Or.inl le_rfl
            · cases hcRem
    · intro d
      show day_sum (st.scheduled ++ [⟨t, b.1, b.1 + (t.estimated_duration_min : ℤ)⟩]) d = _
      rw [day_sum_append, day_sum_single]
      rcases eq_or_ne d (day_of b.1) with rfl | hne
      · simp only [if_pos rfl]
        rw [hsum]
        simp
      · have h1 : day_of b.1 ≠ d := fun hc => hne hc.symm
        simp only [if_neg h1, if_neg hne]
        rw [hsum]
        simp
    · intro d
      rcases eq_or_ne d (day_of b.1) with rfl | hne
      · right
        simpa using hcapb
      · simp only [if_neg hne]
        exact hcap d
    · intro x hx
      rcases List.mem_append.mp hx with hx' | hx'
      · exact hpos x hx'
      · rw [List.mem_singleton] at hx'
        subst hx'
        exact ht

lemma greedy_step_count (maxH : ℚ) (st : GreedyState) (t : Task) :
    (greedy_step maxH st t).scheduled.length + (greedy_step maxH st t).unscheduled.length
      = st.scheduled.length + st.unscheduled.length + 1 := by
  unfold greedy_step
  split <;> simp <;> omega

lemma foldl_greedy_inv (maxH : ℚ) :
    ∀ (l : List Task), (∀ x ∈ l, 0 < x.estimated_duration_min) →
      ∀ st, GreedyInv (maxH * 60) st →
        GreedyInv (maxH * 60) (l.foldl (greedy_step maxH) st) := by
  intro l
  induction l with
  | nil => intro _ st h; exact h
  | cons a xs ih =>
    intro hl st h
    rw [List.foldl_cons]
    exact ih (fun x hx => hl x (List.mem_cons_of_mem _ hx)) _
      (greedy_step_inv (hl a (List.mem_cons_self _ _)) h)

lemma foldl_greedy_count (maxH : ℚ) :
    ∀ (l : List Task) (st : GreedyState),
      (l.foldl (greedy_step maxH) st).scheduled.length
          + (l.foldl (greedy_step maxH) st).unscheduled.length
        = st.scheduled.length + st.unscheduled.length + l.length := by
  intro l
  induction l with
  | nil => intro st; simp
  | cons a xs ih =>
    intro st
    rw [List.foldl_cons, ih]
    rw [greedy_step_count]
    simp
    omega

/-- C1 counterexample: for candidate tasks with positive durations, free
blocks each lying within a single calendar day, and max_hours_per_day = 24,
the greedy scheduler can produce two distinct scheduled tasks with
overlapping intervals — it suffices that the input free-block list itself
contains overlapping blocks (here the block (0, 60) twice). -/
theorem schedule_tasks_greedy_overlap_counterexample :
    ((schedule_tasks_greedy [⟨0, 60, some 2⟩, ⟨1, 60, some 1⟩] [(0, 60), (0, 60)] 24).1
        = [⟨⟨0, 60, some 2⟩, 0, 60⟩, ⟨⟨1, 60, some 1⟩, 0, 60⟩]) ∧
    (⟨⟨0, 60, some 2⟩, 0, 60⟩ : ScheduledTask) ≠ ⟨⟨1, 60, some 1⟩, 0, 60⟩ ∧
    ¬ Disj (interval_of ⟨⟨0, 60, some 2⟩, 0, 60⟩) (interval_of ⟨⟨1, 60, some 1⟩, 0, 60⟩) := by
  refine ⟨?_, by decide, by decide⟩
  norm_num [schedule_tasks_greedy, sort_by, ins_sorted, priority_key, greedy_step,
    find_fit, day_of, Int.fdiv]

/-- C1 (amended): for candidate tasks with positive durations and pairwise
non-overlapping free blocks, the greedy scheduler partitions the candidates
(lengths add up), schedules pairwise non-overlapping intervals, and on every
calendar day on which at least one task is scheduled the scheduled minutes
stay within max_hours_per_day * 60. -/
theorem schedule_tasks_greedy_invariants
    (tasks : List Task) (blocks : List (ℤ × ℤ)) (max_hours_per_day : ℚ)
    (hdur : ∀ x ∈ tasks, 0 < x.estimated_duration_min)
    (hdisj : List.Pairwise Disj blocks) :
    ((schedule_tasks_greedy tasks blocks max_hours_per_day).1.length
        + (schedule_tasks_greedy tasks blocks max_hours_per_day).2.length
        = tasks.length) ∧
    List.Pairwise (fun a b => Disj (interval_of a) (interval_of b))
      (schedule_tasks_greedy tasks blocks max_hours_per_day).1 ∧
    (∀ st ∈ (schedule_tasks_greedy tasks blocks max_hours_per_day).1,
      ((day_sum (schedule_tasks_greedy tasks blocks max_hours_per_day).1
          (day_of st.scheduled_start) : ℕ) : ℚ) ≤ max_hours_per_day * 60) := by
  have hperm := perm_sort_by
    (fun a b => decide (priority_key b ≤ priority_key a)) tasks
  have hsortdur : ∀ x ∈ sort_by (fun a b => decide (priority_key b ≤ priority_key a)) tasks,
      0 < x.estimated_duration_min := fun x hx => hdur x (hperm.subset hx)
  have hinv0 : GreedyInv (max_hours_per_day * 60) ⟨blocks, fun _ => 0, [], []⟩ :=
    ⟨by simpa using hdisj, fun d => rfl, fun d => Or.inl rfl, by simp⟩
  have hinv := foldl_greedy_inv max_hours_per_day _ hsortdur _ hinv0
  have hcount := foldl_greedy_count max_hours_per_day
    (sort_by (fun a b => decide (priority_key b ≤ priority_key a)) tasks)
    ⟨blocks, fun _ => 0, [], []⟩
  simp only [schedule_tasks_greedy]
  obtain ⟨hpw, hsum, hcap, hpos⟩ := hinv
  refine ⟨?_, ?_, ?_⟩
  · rw [hcount]
    simp [hperm.length_eq]
  · have := (List.pairwise_append.mp hpw).1
    exact List.pairwise_map.mp this
  · intro st hst
    have hd := hsum (day_of st.scheduled_start)
    have hne : 0 < day_sum
        ((sort_by (fun a b => decide (priority_key b ≤ priority_key a)) tasks).foldl
          (greedy_step max_hours_per_day) ⟨blocks, fun _ => 0, [], []⟩).scheduled
        (day_of st.scheduled_start) :=
      day_sum_pos hst (hpos st hst)
    rcases hcap (day_of st.scheduled_start) with h0 | hle
    · rw [hd] at hne
      omega
    · rw [hd]
      exact hle

/-- Witness for C1 (amended) at the concrete scenario of spec section 8:
one 08:00-10:00 block, a 90-minute and a 60-minute task, 4h daily cap. -/
theorem schedule_tasks_greedy_invariants_witness :
    (0:ℕ) < 90 ∧ (0:ℕ) < 60 ∧
    ((schedule_tasks_greedy [⟨0, 90, some 10⟩, ⟨1, 60, some 5⟩] [(480, 600)] 4).1.length
        + (schedule_tasks_greedy [⟨0, 90, some 10⟩, ⟨1, 60, some 5⟩] [(480, 600)] 4).2.length
        = 2) := by
  refine ⟨by decide, by decide, ?_⟩
  exact (schedule_tasks_greedy_invariants [⟨0, 90, some 10⟩, ⟨1, 60, some 5⟩]
    [(480, 600)] 4 (by decide) (by decide)).1

/-! ## Availability planner (scheduler.py, get_available_time_blocks lines 19-77) -/

/-- The fields of UserPreferences (models.py lines 124-153) read by
get_available_time_blocks.  Times of day are minutes after midnight, so a
`datetime.time` value always lies in [0, 1440). -/
structure SchedPrefs where
  max_hours_per_day : ℚ
  preferred_block_length_min : ℕ
  break_length_min : ℕ
  earliest_start_time : ℤ
  latest_end_time : ℤ
  weekly_availability : List (String × Bool)
deriving Repr, DecidableEq

/-- Embeds `current_date.strftime("%A").lower()` (scheduler.py line 45): epoch day 0
(1970-01-01) is a Thursday. -/
def weekday_name (d : ℤ) : String :=
  ["thursday", "friday", "saturday", "sunday", "monday", "tuesday",
    "wednesday"].getD (Int.emod d 7).toNat ""

/-- The per-day tiling loop of get_available_time_blocks (scheduler.py lines
60-73): starting at `current_block_start`, emit `preferred_block_length_min`
blocks separated by `break_length_min` gaps, skipping any block that overlaps
a busy calendar interval (`block.start_time < current_block_end and
block.end_time > current_block_start`, line 66).  `fuel` bounds the
iteration count; the Python while-loop diverges when
`block_length + brk = 0`, and the fuel passed in `day_blocks` suffices for
every other input. -/
def tile_day (cal_blocks : List (ℤ × ℤ)) (block_length brk : ℕ) (end_time : ℤ) :
    ℕ → ℤ → List (ℤ × ℤ)
  | 0, _ => []
  | fuel + 1, current_block_start =>
    if current_block_start + (block_length : ℤ) ≤ end_time then
      let current_block_end := current_block_start + (block_length : ℤ)
      let is_busy := cal_blocks.any fun block =>
        decide (block.1 < current_block_end ∧ block.2 > current_block_start)
      (if is_busy then [] else [(current_block_start, current_block_end)])
        ++ tile_day cal_blocks block_length brk end_time fuel
            (current_block_end + (brk : ℤ))
    else []

/-- One iteration of the day loop (scheduler.py lines 44-75): skip the day if
`weekly_availability.get(day_of_week, True)` is false, otherwise tile
`[earliest_start_time, latest_end_time)` of that day. -/
def day_blocks (prefs : SchedPrefs) (cal_blocks : List (ℤ × ℤ)) (d : ℤ) :
    List (ℤ × ℤ) :=
  if (prefs.weekly_availability.lookup (weekday_name d)).getD true then
    let start_time := d * 1440 + prefs.earliest_start_time
    let end_time := d * 1440 + prefs.latest_end_time
    tile_day cal_blocks prefs.preferred_block_length_min prefs.break_length_min
      end_time ((end_time - start_time).toNat + 1) start_time
  else []

/-- The consecutive days `start_date, start_date+1, ...` (`n` of them),
embedding the `while current_date <= end_date` loop counter. -/
def day_list (start_date : ℤ) : ℕ → List ℤ
  | 0 => []
  | n + 1 => start_date :: day_list (start_date + 1) n

/-- get_available_time_blocks (scheduler.py lines 19-77).  The calendar-block
query (lines 34-38) keeps only busy intervals lying entirely inside
`[combine(start_date, time.min), combine(end_date, time.max)]`; busy
intervals straddling the window boundary are NOT consulted.  Then every day
from start_date to end_date inclusive is tiled. -/
def get_available_time_blocks (prefs : SchedPrefs)
    (all_calendar_blocks : List (ℤ × ℤ)) (start_date end_date : ℤ) :
    List (ℤ × ℤ) :=
  let calendar_blocks := all_calendar_blocks.filter fun blk =>
    decide (start_date * 1440 ≤ blk.1 ∧ blk.2 ≤ end_date * 1440 + 1439)
  (day_list start_date (end_date + 1 - start_date).toNat).flatMap
    (day_blocks prefs calendar_blocks)

lemma tile_day_not_busy (cal : List (ℤ × ℤ)) (len brk : ℕ) (e : ℤ) :
    ∀ (fuel : ℕ) (s : ℤ), ∀ blk ∈ tile_day cal len brk e fuel s,
      ∀ bz ∈ cal, ¬(bz.1 < blk.2 ∧ bz.2 > blk.1) := by
  intro fuel
  induction fuel with
  | zero => intro s blk hblk; simp [tile_day] at hblk
  | succ n ih =>
    intro s blk hblk bz hbz
    simp only [tile_day] at hblk
    split at hblk
    · rcases List.mem_append.mp hblk with h1 | h2
      · split at h1
        · cases h1
        · rename_i hbusy
          rw [List.mem_singleton] at h1
          subst h1
          intro hcon
          exact hbusy (List.any_eq_true.mpr ⟨bz, hbz, decide_eq_true hcon⟩)
      · exact ih _ blk h2 bz hbz
    · cases hblk

lemma tile_day_bounds (cal : List (ℤ × ℤ)) (len brk : ℕ) (e : ℤ) :
    ∀ (fuel : ℕ) (s : ℤ), ∀ blk ∈ tile_day cal len brk e fuel s,
      s ≤ blk.1 ∧ blk.2 ≤ e := by
  intro fuel
  induction fuel with
  | zero => intro s blk h; simp [tile_day] at h
  | succ n ih =>
    intro s blk h
    simp only [tile_day] at h
    split at h
    · rename_i hcond
      rcases List.mem_append.mp h with h1 | h2
      · split at h1
        · cases h1
        · rw [List.mem_singleton] at h1
          subst h1
          exact ⟨le_rfl, hcond⟩
      · have hb := ih _ blk h2
        refine ⟨?_, hb.2⟩
        have := hb.1
        omega
    · cases h

lemma tile_day_pairwise (cal : List (ℤ × ℤ)) (len brk : ℕ) (e : ℤ) :
    ∀ (fuel : ℕ) (s : ℤ),
      List.Pairwise (fun a b : ℤ × ℤ => a.2 ≤ b.1) (tile_day cal len brk e fuel s) := by
  intro fuel
  induction fuel with
  | zero => intro s; simp [tile_day]
  | succ n ih =>
    intro s
    simp only [tile_day]
    split
    · split
      · simpa using ih _
      · refine List.pairwise_append.mpr ⟨by simp, ih _, ?_⟩
        intro a ha b hb
        rw [List.mem_singleton] at ha
        subst ha
        have := (tile_day_bounds cal len brk e n _ b hb).1
        show s + (len : ℤ) ≤ b.1
        omega
    · simp

lemma day_blocks_bounds {prefs : SchedPrefs} {cal : List (ℤ × ℤ)} {d : ℤ}
    (hE : 0 ≤ prefs.earliest_start_time) :
    ∀ blk ∈ day_blocks prefs cal d,
      d * 1440 ≤ blk.1 ∧ blk.2 ≤ d * 1440 + prefs.latest_end_time := by
  intro blk h
  unfold day_blocks at h
  split at h
  · have hb := tile_day_bounds cal _ _ _ _ _ blk h
    exact ⟨by omega, hb.2⟩
  · cases h

lemma day_blocks_pairwise (prefs : SchedPrefs) (cal : List (ℤ × ℤ)) (d : ℤ) :
    List.Pairwise (fun a b : ℤ × ℤ => a.2 ≤ b.1) (day_blocks prefs cal d) := by
  unfold day_blocks
  split
  · exact tile_day_pairwise cal _ _ _ _ _
  · simp

lemma day_list_mem : ∀ (n : ℕ) (s d : ℤ), d ∈ day_list s n → s ≤ d := by
  intro n
  induction n with
  | zero => intro s d h; simp [day_list] at h
  | succ k ih =>
    intro s d h
    rw [day_list] at h
    rcases List.mem_cons.mp h with rfl | h'
    · exact le_rfl
    · have := ih (s + 1) d h'
      omega

lemma flat_day_list_pairwise (prefs : SchedPrefs) (cal : List (ℤ × ℤ))
    (hE : 0 ≤ prefs.earliest_start_time) (hL : prefs.latest_end_time ≤ 1440) :
    ∀ (n : ℕ) (s : ℤ),
      List.Pairwise (fun a b : ℤ × ℤ => a.2 ≤ b.1)
        ((day_list s n).flatMap (day_blocks prefs cal)) := by
  intro n
  induction n with
  | zero => intro s; simp [day_list]
  | succ k ih =>
    intro s
    simp only [day_list, List.flatMap_cons]
    refine List.pairwise_append.mpr ⟨day_blocks_pairwise prefs cal s, ih _, ?_⟩
    intro a ha b hb
    obtain ⟨d', hd', hbd⟩ := List.mem_flatMap.mp hb
    have h1 := (day_blocks_bounds hE a ha).2
    have h2 := (day_blocks_bounds hE b hbd).1
    have h3 : s + 1 ≤ d' := day_list_mem _ _ _ hd'
    show a.2 ≤ b.1
    nlinarith

/-- C4 (amended): every block returned by the availability planner overlaps
none of the busy intervals that survive the query-window filter (those lying
entirely inside [start_date 00:00, end_date 23:59]), and — for well-formed
times of day (earliest_start_time ≥ 0, latest_end_time ≤ 24h) — the returned
list is chronologically ordered across the whole range (each block ends no
later than the next begins). -/
theorem get_available_time_blocks_spec (prefs : SchedPrefs) (cal : List (ℤ × ℤ))
    (start_date end_date : ℤ)
    (hE : 0 ≤ prefs.earliest_start_time) (hL : prefs.latest_end_time ≤ 1440) :
    (∀ blk ∈ get_available_time_blocks prefs cal start_date end_date,
      ∀ bz ∈ cal.filter (fun b =>
          decide (start_date * 1440 ≤ b.1 ∧ b.2 ≤ end_date * 1440 + 1439)),
        ¬(bz.1 < blk.2 ∧ bz.2 > blk.1)) ∧
    List.Pairwise (fun a b : ℤ × ℤ => a.2 ≤ b.1)
      (get_available_time_blocks prefs cal start_date end_date) := by
  constructor
  · intro blk hblk bz hbz
    unfold get_available_time_blocks at hblk
    obtain ⟨d, _, hbd⟩ := List.mem_flatMap.mp hblk
    unfold day_blocks at hbd
    split at hbd
    · exact tile_day_not_busy _ _ _ _ _ _ blk hbd bz hbz
    · cases hbd
  · unfold get_available_time_blocks
    exact flat_day_list_pairwise prefs _ hE hL _ _

/-- Preferences for the C4 counterexample and witness: every weekday
enabled (empty dict, default True), study window 09:00-10:00, 60-minute
blocks, no breaks. -/
def prefs4 : SchedPrefs := ⟨4, 60, 0, 540, 600, []⟩

/-- C4 counterexample: a busy interval from day 0 22:00 to day 1 23:00
straddles the query window for the range [day 1, day 1], so the filter of
scheduler.py lines 36-37 drops it, and the returned block day 1
09:00-10:00 overlaps it. -/
theorem get_available_time_blocks_busy_counterexample :
    (((1980 : ℤ), (2040 : ℤ)) ∈ get_available_time_blocks prefs4 [(1320, 2820)] 1 1) ∧
    ((1320 : ℤ) < 2040 ∧ (2820 : ℤ) > 1980) := by
  constructor
  · decide
  · decide

/-- Witness for C4 (amended) at the counterexample input. -/
theorem get_available_time_blocks_spec_witness :
    (0 : ℤ) ≤ 540 ∧ (600 : ℤ) ≤ 1440 ∧
    List.Pairwise (fun a b : ℤ × ℤ => a.2 ≤ b.1)
      (get_available_time_blocks prefs4 [(1320, 2820)] 1 1) :=
  ⟨by decide, by decide,
    (get_available_time_blocks_spec prefs4 [(1320, 2820)] 1 1 (by decide) (by decide)).2⟩

/-! ## Prioritized topics (mastery_engine.py, get_prioritized_topics lines
275-345) and the task generator (scheduler.py, create_study_tasks_from_topics
lines 80-129) -/

/-- Topic row (models.py lines 185-208), claim-relevant fields. -/
structure TopicRow where
  id : String
  name : String
  course_id : String
deriving Repr, DecidableEq

/-- Assessment row (models.py lines 211-230) together with the topic ids it
covers (the assessment_topics join table, models.py lines 233-240);
`due_date` is a datetime in minutes. -/
structure AssessmentRow where
  name : String
  course_id : String
  weight_percent : ℚ
  due_date : ℤ
  is_completed : Bool
  topic_ids : List String
deriving Repr, DecidableEq

/-- The persistence snapshot the mastery engine and task generator query. -/
structure Db where
  mastery_records : List MasteryRecord
  topics : List TopicRow
  assessments : List AssessmentRow
deriving Repr, DecidableEq

/-- One entry of the list returned by get_prioritized_topics, with the
fields of the dict literal at mastery_engine.py lines 330-340. -/
structure PrioritizedTopic where
  topic_id : String
  topic_name : String
  course_id : String
  priority : ℚ
  mastery : ℚ
  trend : Trend
  recommended_difficulty : Difficulty
  assessment_name : String
  days_until_exam : ℤ
deriving Repr, DecidableEq

/-- The entry built at mastery_engine.py lines 312-340 for one mastery
record, its topic, and the chosen next assessment. -/
def mk_entry (record : MasteryRecord) (topic : TopicRow)
    (next_assessment : AssessmentRow) (today : ℤ) : PrioritizedTopic :=
  let priority := calculate_priority next_assessment.weight_percent
    record.mastery_score record.confidence_interval
    (day_of next_assessment.due_date) (record.last_practiced_at.map day_of) today
  let days_until := day_of next_assessment.due_date - today
  let difficulty := select_difficulty_adaptive record.mastery_score record.trend
    days_until "balanced"
  { topic_id := record.topic_id
    topic_name := topic.name
    course_id := topic.course_id
    priority := priority
    mastery := record.mastery_score
    trend := record.trend
    recommended_difficulty := difficulty
    assessment_name := next_assessment.name
    days_until_exam := days_until }

/-- The query at mastery_engine.py lines 300-305: all assessments covering
the topic whose due_date is not before now, ordered by due_date ascending.
Note that the query has NO is_completed filter. -/
def upcoming_assessments (db : Db) (topic_id : String) (now : ℤ) :
    List AssessmentRow :=
  sort_by (fun a b => a.due_date ≤ b.due_date)
    (db.assessments.filter fun a => decide (topic_id ∈ a.topic_ids ∧ now ≤ a.due_date))

/-- The body of the per-record loop at mastery_engine.py lines 293-340:
skip when the topic row is gone or no upcoming assessment covers the topic,
otherwise build the prioritized entry from the earliest upcoming
assessment. -/
def process_record (db : Db) (now today : ℤ) (record : MasteryRecord) :
    Option PrioritizedTopic :=
  match db.topics.find? (fun t => t.id == record.topic_id) with
  | none => none
  | some topic =>
    match upcoming_assessments db record.topic_id now with
    | [] => none
    | next_assessment :: _ => some (mk_entry record topic next_assessment today)

/-- get_prioritized_topics (mastery_engine.py lines 275-345): process every
mastery record of the user, sort the entries by priority descending
(Python's stable sort with reverse=True), and keep the first
horizon_days * 2. -/
def get_prioritized_topics (db : Db) (user_id : String) (now today : ℤ)
    (horizon_days : ℕ) : List PrioritizedTopic :=
  let mastery_records := db.mastery_records.filter fun r => r.user_id == user_id
  let prioritized := mastery_records.filterMap (process_record db now today)
  (sort_by (fun a b => b.priority ≤ a.priority) prioritized).take (horizon_days * 2)

/-- A Python value stored in a topic dict. -/
inductive PyVal
  | str (v : String)
  | num (v : ℚ)
  | intg (v : ℤ)
deriving Repr, DecidableEq

/-- The dict literal of mastery_engine.py lines 330-340: exactly these keys
are written (note `priority` and `mastery`, not `priority_score` /
`mastery_score`). -/
def topic_dict (e : PrioritizedTopic) : List (String × PyVal) :=
  [("topic_id", PyVal.str e.topic_id),
   ("topic_name", PyVal.str e.topic_name),
   ("course_id", PyVal.str e.course_id),
   ("priority", PyVal.num e.priority),
   ("mastery", PyVal.num e.mastery),
   ("trend", PyVal.str e.trend.value),
   ("recommended_difficulty", PyVal.str e.recommended_difficulty.value),
   ("assessment_name", PyVal.str e.assessment_name),
   ("days_until_exam", PyVal.intg e.days_until_exam)]

/-- Embeds `d[k]` on a Python dict: raises KeyError when the key is absent. -/
def dict_get (d : List (String × PyVal)) (k : String) : Except String PyVal :=
  match d.lookup k with
  | some v => Except.ok v
  | none => Except.error ("KeyError: " ++ k)

/-- Attribute access on the TaskType enum (models.py lines 74-80): raises
AttributeError for a missing member — in particular PRACTICE, which
scheduler.py line 121 references but the enum does not define. -/
def task_type_attr (name : String) : Except String TaskType :=
  match name with
  | "READING" => Except.ok TaskType.reading
  | "PROBLEM_SET" => Except.ok TaskType.problem_set
  | "QUIZ" => Except.ok TaskType.quiz
  | "REVIEW" => Except.ok TaskType.review
  | "PROJECT" => Except.ok TaskType.project
  | "FLASHCARDS" => Except.ok TaskType.flashcards
  | other => Except.error ("AttributeError: " ++ other)

/-- A StudyTask row as create_study_tasks_from_topics would build it
(scheduler.py lines 116-126). -/
structure GenTask where
  user_id : String
  course_id : String
  topic_id : String
  title : String
  task_type : TaskType
  difficulty : Difficulty
  estimated_duration_min : ℕ
  priority_score : ℚ
  status : TaskStatus
deriving Repr, DecidableEq

/-- Using a dict value as a float. -/
def as_num : PyVal → Except String ℚ
  | PyVal.num q => Except.ok q
  | _ => Except.error "TypeError"

/-- The loop body of create_study_tasks_from_topics (scheduler.py lines
98-127) for one topic dict: look the topic up (skip when absent), read
`topic_data['mastery_score']` (line 104), pick the difficulty/duration band,
and build the PRACTICE task with `topic_data['priority_score']` (lines
116-126).  Dict and attribute accesses are sequenced in source order, so the
first missing key aborts the whole call, as in Python. -/
def task_from_topic_data (db : Db) (user_id course_id : String)
    (topic_data : List (String × PyVal)) : Except String (Option GenTask) := do
  let tid_v ← dict_get topic_data "topic_id"
  let topic? : Option TopicRow :=
    match tid_v with
    | PyVal.str s => db.topics.find? (fun t => t.id == s)
    | _ => none
  match topic? with
  | none => pure none
  | some topic => do
    let ms_v ← dict_get topic_data "mastery_score"
    let mastery_score ← as_num ms_v
    let band : Difficulty × ℕ :=
      if mastery_score < 40 then (Difficulty.easy, 30)
      else if mastery_score < 70 then (Difficulty.medium, 45)
      else (Difficulty.hard, 60)
    let ttype ← task_type_attr "PRACTICE"
    let ps_v ← dict_get topic_data "priority_score"
    let priority_score ← as_num ps_v
    pure (some
      { user_id := user_id
        course_id := course_id
        topic_id := topic.id
        title := "Practice: " ++ topic.name
        task_type := ttype
        difficulty := band.1
        estimated_duration_min := band.2
        priority_score := priority_score
        status := TaskStatus.pending })

/-- The task-accumulating loop of create_study_tasks_from_topics
(scheduler.py lines 97-127). -/
def tasks_loop (db : Db) (user_id course_id : String) :
    List (List (String × PyVal)) → Except String (List GenTask)
  | [] => Except.ok []
  | td :: rest => do
    let t? ← task_from_topic_data db user_id course_id td
    let ts ← tasks_loop db user_id course_id rest
    pure (t?.toList ++ ts)

/-- create_study_tasks_from_topics (scheduler.py lines 80-129): get the
prioritized topic dicts, keep those of the given course, and build one
PRACTICE task per remaining dict. -/
def create_study_tasks_from_topics (db : Db) (user_id course_id : String)
    (now today : ℤ) : Except String (List GenTask) :=
  let prioritized_topics := (get_prioritized_topics db user_id now today 7).map topic_dict
  let course_topics := prioritized_topics.filter fun (t : List (String × PyVal)) =>
    match t.lookup "course_id" with
    | some (PyVal.str c) => c == course_id
    | _ => false
  tasks_loop db user_id course_id course_topics

/-! ## Replan (scheduler.py, replan_schedule lines 284-314) -/

/-- A persisted StudyTask row as seen by replan_schedule's delete query. -/
structure DbStudyTask where
  id : ℕ
  user_id : String
  status : TaskStatus
  scheduled_start : Option ℤ
deriving Repr, DecidableEq

/-- The delete predicate of replan_schedule (scheduler.py lines 298-303):
same user, `scheduled_start` within `[today 00:00, (today+7) 23:59]`, status
PENDING or SCHEDULED.  SQL comparisons against NULL are false, so rows with
no scheduled_start are kept. -/
def replan_delete_filter (user_id : String) (today : ℤ) (t : DbStudyTask) : Bool :=
  t.user_id == user_id &&
  (match t.scheduled_start with
   | some s => decide (today * 1440 ≤ s ∧ s ≤ (today + 7) * 1440 + 1439)
   | none => false) &&
  (t.status == TaskStatus.pending || t.status == TaskStatus.scheduled)

/-- The committed database state right after the delete phase of
replan_schedule: scheduler.py line 305 calls db.commit() BEFORE
generate_schedule runs, so this state is durable.  A failure anywhere inside
generate_schedule (which commits separately at line 261) leaves the store in
exactly this state. -/
def replan_state_after_delete_commit (user_id : String) (today : ℤ)
    (store : List DbStudyTask) : List DbStudyTask :=
  store.filter fun t => !(replan_delete_filter user_id today t)

/-! ## Claim theorems C5, C3, C2 -/

lemma due_tot (a b : AssessmentRow) :
    decide (a.due_date ≤ b.due_date) = false → decide (b.due_date ≤ a.due_date) = true := by
  simp only [decide_eq_false_iff_not, decide_eq_true_eq]
  exact fun h => le_of_not_le h

lemma due_trans (a b c : AssessmentRow) :
    decide (a.due_date ≤ b.due_date) = true → decide (b.due_date ≤ c.due_date) = true →
      decide (a.due_date ≤ c.due_date) = true := by
  simp only [decide_eq_true_eq]
  exact fun h1 h2 => le_trans h1 h2

lemma prio_tot (a b : PrioritizedTopic) :
    decide (b.priority ≤ a.priority) = false → decide (a.priority ≤ b.priority) = true := by
  simp only [decide_eq_false_iff_not, decide_eq_true_eq]
  exact fun h => le_of_not_le h

lemma prio_trans (a b c : PrioritizedTopic) :
    decide (b.priority ≤ a.priority) = true → decide (c.priority ≤ b.priority) = true →
      decide (c.priority ≤ a.priority) = true := by
  simp only [decide_eq_true_eq]
  exact fun h1 h2 => le_trans h2 h1

/-- C5 (amended): get_prioritized_topics (a) returns at most
horizon_days * 2 entries, (b) sorted descending by priority; (c) every entry
comes from one of the user's mastery records through process_record;
(d) every entry produced by process_record is built from an assessment that
covers the record's topic, is not yet due, and has the earliest due date
among all such assessments — irrespective of is_completed; and (e) a record
with no not-yet-due covering assessment contributes no entry. -/
theorem get_prioritized_topics_spec (db : Db) (user_id : String) (now today : ℤ)
    (horizon_days : ℕ) :
    ((get_prioritized_topics db user_id now today horizon_days).length
        ≤ horizon_days * 2) ∧
    List.Pairwise (fun a b : PrioritizedTopic => b.priority ≤ a.priority)
      (get_prioritized_topics db user_id now today horizon_days) ∧
    (∀ en ∈ get_prioritized_topics db user_id now today horizon_days,
      ∃ r ∈ db.mastery_records, r.user_id = user_id ∧
        process_record db now today r = some en) ∧
    (∀ (r : MasteryRecord) (en : PrioritizedTopic),
      process_record db now today r = some en →
      ∃ topic a, db.topics.find? (fun t => t.id == r.topic_id) = some topic ∧
        a ∈ db.assessments ∧ r.topic_id ∈ a.topic_ids ∧ now ≤ a.due_date ∧
        (∀ a' ∈ db.assessments, r.topic_id ∈ a'.topic_ids → now ≤ a'.due_date →
          a.due_date ≤ a'.due_date) ∧
        en = mk_entry r topic a today) ∧
    (∀ r : MasteryRecord,
      db.assessments.filter (fun a =>
        decide (r.topic_id ∈ a.topic_ids ∧ now ≤ a.due_date)) = [] →
      process_record db now today r = none) := by
  refine ⟨?_, ?_, ?_, ?_, ?_⟩
  · simp only [get_prioritized_topics]
    rw [List.length_take]
    exact min_le_left _ _
  · simp only [get_prioritized_topics]
    have hp := pairwise_sort_by
      (fun a b : PrioritizedTopic => decide (b.priority ≤ a.priority))
      prio_tot prio_trans
      ((db.mastery_records.filter fun r => r.user_id == user_id).filterMap
        (process_record db now today))
    exact ((hp.sublist (List.take_sublist _ _)).imp fun h => of_decide_eq_true h)
  · intro en hen
    simp only [get_prioritized_topics] at hen
    have h1 := (List.take_sublist _ _).subset hen
    have h2 := (perm_sort_by _ _).subset h1
    obtain ⟨r, hr, hpr⟩ := List.mem_filterMap.mp h2
    have hr' := List.mem_filter.mp hr
    exact ⟨r, hr'.1, beq_iff_eq.mp hr'.2, hpr⟩
  · intro r en hpr
    unfold process_record at hpr
    split at hpr
    · cases hpr
    · rename_i topic hfind
      split at hpr
      · cases hpr
      · rename_i a rest hup
        rw [Option.some_inj] at hpr
        unfold upcoming_assessments at hup
        have hpermU := perm_sort_by
          (fun x y : AssessmentRow => decide (x.due_date ≤ y.due_date))
          (db.assessments.filter fun x =>
            decide (r.topic_id ∈ x.topic_ids ∧ now ≤ x.due_date))
        have hamem : a ∈ db.assessments.filter (fun x =>
            decide (r.topic_id ∈ x.topic_ids ∧ now ≤ x.due_date)) := by
          apply hpermU.subset
          rw [hup]
          exact List.mem_cons_self _ _
        have hafil := List.mem_filter.mp hamem
        have hcond := of_decide_eq_true hafil.2
        have hsorted := pairwise_sort_by
          (fun x y : AssessmentRow => decide (x.due_date ≤ y.due_date))
          due_tot due_trans
          (db.assessments.filter fun x =>
            decide (r.topic_id ∈ x.topic_ids ∧ now ≤ x.due_date))
        rw [hup] at hsorted
        obtain ⟨hhead, _⟩ := List.pairwise_cons.mp hsorted
        refine ⟨topic, a, hfind, hafil.1, hcond.1, hcond.2, ?_, hpr.symm⟩
        intro a' ha' hcov hdue
        have ha'fil : a' ∈ db.assessments.filter (fun x =>
            decide (r.topic_id ∈ x.topic_ids ∧ now ≤ x.due_date)) :=
          List.mem_filter.mpr ⟨ha', decide_eq_true ⟨hcov, hdue⟩⟩
        have hin : a' ∈ a :: rest := by
          rw [← hup]
          exact hpermU.symm.subset ha'fil
        rcases List.mem_cons.mp hin with rfl | hrest'
        · exact le_rfl
        · exact of_decide_eq_true (hhead a' hrest')
  · intro r hfil
    unfold process_record
    split
    · rfl
    · have hupe : upcoming_assessments db r.topic_id now = [] := by
        unfold upcoming_assessments
        rw [hfil]
        rfl
      rw [hupe]

/-- The database of the C5 counterexample: one mastery record for user "u"
on topic "t", the topic row, and a single COMPLETED assessment covering the
topic, due in the future. -/
def db5 : Db :=
  { mastery_records := [⟨"u", "t", 50, 20, Trend.stable, none, 0, 1, 2.5, 1, 0⟩]
    topics := [⟨"t", "T", "c"⟩]
    assessments := [⟨"A", "c", 30, 14400, true, ["t"]⟩] }

/-- C5 counterexample: the only assessment in db5 is completed, so under the
claim ("only … incomplete Assessment …; topics with no such assessment are
skipped") the result would be empty; the code has no is_completed filter and
returns the topic anyway. -/
theorem get_prioritized_topics_completed_counterexample :
    (get_prioritized_topics db5 "u" 0 0 7).length = 1 ∧
    db5.assessments.all (fun a => a.is_completed) = true := by
  constructor
  · decide
  · decide

/-- A database with no assessments at all, for the C5 witness. -/
def db5e : Db :=
  { mastery_records := [⟨"u", "t", 50, 20, Trend.stable, none, 0, 1, 2.5, 1, 0⟩]
    topics := [⟨"t", "T", "c"⟩]
    assessments := [] }

/-- Witness for C5 (amended): clause (e) applied at a concrete record with
no upcoming covering assessment. -/
theorem get_prioritized_topics_spec_witness :
    (db5e.assessments.filter (fun a =>
      decide (("t" : String) ∈ a.topic_ids ∧ (0 : ℤ) ≤ a.due_date)) = []) ∧
    process_record db5e 0 0 ⟨"u", "t", 50, 20, Trend.stable, none, 0, 1, 2.5, 1, 0⟩ = none :=
  ⟨by decide,
    (get_prioritized_topics_spec db5e "u" 0 0 7).2.2.2.2
      ⟨"u", "t", 50, 20, Trend.stable, none, 0, 1, 2.5, 1, 0⟩ (by decide)⟩

/-- The database of the C3 evaluation: one record, its topic in course "c",
and one incomplete upcoming assessment covering it, so get_prioritized_topics
returns exactly one topic for course "c". -/
def db3 : Db :=
  { mastery_records := [⟨"u", "t", 50, 20, Trend.stable, none, 0, 1, 2.5, 1, 0⟩]
    topics := [⟨"t", "T", "c"⟩]
    assessments := [⟨"A", "c", 30, 14400, false, ["t"]⟩] }

/-- C3: whenever the engine returns at least one prioritized topic for the
course, create_study_tasks_from_topics crashes with
KeyError('mastery_score'): scheduler.py line 104 reads
`topic_data['mastery_score']` but get_prioritized_topics writes the key
`mastery` (mastery_engine.py line 335) — so no PRACTICE task is ever built.
(The same function would next hit `TaskType.PRACTICE`, absent from the enum,
and `topic_data['priority_score']` vs the written key `priority`.) -/
theorem create_study_tasks_key_error :
    (get_prioritized_topics db3 "u" 0 0 7).length = 1 ∧
    create_study_tasks_from_topics db3 "u" "c" 0 0
      = Except.error "KeyError: mastery_score" := by
  constructor
  · decide
  · rfl

/-- C2: replan_schedule commits the delete of the in-horizon
PENDING/SCHEDULED tasks (scheduler.py line 305) before generate_schedule
runs and commits separately (line 261).  Evaluated at a store holding one
SCHEDULED task at day 0, 09:00, the durable state after the delete commit is
empty although the original store was not: a failure inside
generate_schedule leaves the user with no schedule for the horizon, so the
delete+regenerate pair is not atomic. -/
theorem replan_delete_commit_loses_schedule :
    replan_state_after_delete_commit "u" 0
        [⟨0, "u", TaskStatus.scheduled, some 540⟩] = [] ∧
    ([⟨0, "u", TaskStatus.scheduled, some 540⟩] : List DbStudyTask) ≠ [] := by
  constructor
  · decide
  · decide

end StudyHelp
